import Mathlib

/-!
Verification of the LibrePuff extraction core against its design document.

The Rust sources are shallowly embedded: bytes are `Nat` values below 256,
byte strings are `List Nat`, bit vectors are `List Bool`, and machine
arithmetic is carried out on `Nat` with explicit reductions modulo `2^16`
or `2^32` where the Rust code relies on wrapping semantics, or with
explicit checks (yielding a panic outcome) where a Rust debug build would
abort on overflow or underflow.  External cryptographic primitives
(the multi-cipher CBC cascade, the keyed scrambler and the CSPRNG live in
C, outside this crate) appear as opaque function parameters; only their
Rust-side wrappers (length and NUL checks, in-place buffer discipline)
are embedded.
-/

namespace LibrePuff

/-! ## Generic bit and byte helpers -/

/-- Binary-digit recursion with explicit fuel (structural, so the kernel can
evaluate it).  `fuel` bounds the number of halvings; `fuel = n` always
suffices since `n < 2 ^ n`. -/
def countOnesFuel : Nat → Nat → Nat
  | 0, _ => 0
  | _ + 1, 0 => 0
  | fuel + 1, n + 1 => (n + 1) % 2 + countOnesFuel fuel ((n + 1) / 2)

/-- Number of set bits of a natural number (`u8::count_ones` / `u32::count_ones`). -/
def countOnes (n : Nat) : Nat := countOnesFuel n n

/-- Decidable equality for `Except`, used to evaluate concrete runs. -/
instance {α β : Type} [DecidableEq α] [DecidableEq β] : DecidableEq (Except α β)
  | .error a, .error b => decidable_of_iff (a = b) (by simp)
  | .ok a, .ok b => decidable_of_iff (a = b) (by simp)
  | .error _, .ok _ => isFalse (by simp)
  | .ok _, .error _ => isFalse (by simp)

/-! ## `librepuff/src/passwords.rs` -/

/-- `compute_hamming_distance` (`passwords.rs:24`): normalized Hamming distance
between two password byte strings, as a percentage.  Out-of-range indices read
as `0` (zero padding to the longer length).  When both inputs are empty the
Rust code divides by zero and panics; the embedding returns `0` there. -/
def compute_hamming_distance (password1 password2 : List Nat) : Nat :=
  (List.range (max password1.length password2.length)).foldl
      (fun acc i => acc + countOnes (password1.getD i 0 ^^^ password2.getD i 0)) 0
    * 100 / (max password1.length password2.length * 8)

/-! ## `librepuff/src/chain.rs`: key derivation -/

/-- The per-byte transform inside `derive_next_prekey` (`chain.rs:25-31`):
`(iv_value as u16) << 8` for odd bytes, `iv_value as u16` otherwise
(`u16` shift drops bits above bit 15). -/
def gIv (b : Nat) : Nat :=
  if b % 2 = 1 then (b <<< 8) % 65536 else b % 65536

/-- `derive_next_prekey` (`chain.rs:22-35`): 16-bit wrapping sum of `gIv` over
the previous IV, wrapping-added to the previous prekey.  `u16` addition wraps
(OpenPuff compatibility requires wrapping semantics at width 16). -/
def derive_next_prekey (previous_prekey : Nat) (previous_iv : List Nat) : Nat :=
  (previous_prekey + previous_iv.foldl (fun acc b => (acc + gIv b) % 65536) 0) % 65536

/-- `derive_key` (`chain.rs:37-42`): `prekey * 0x10000 + 0x502239c3 + i` in
wrapping `u32` arithmetic.  `u32::try_from(carrier_position).unwrap()` panics
(modelled as `none`) for positions at or above `2^32`. -/
def derive_key (carrier_position : Nat) (prekey : Nat) : Option Nat :=
  if carrier_position < 4294967296 then
    some ((((prekey % 65536) * 65536 % 4294967296 + 0x502239c3) % 4294967296
            + carrier_position) % 4294967296)
  else
    none

/-- The prekey selection of `decrypt_carrier_chain` (`chain.rs:91-94`):
`0` for the first carrier, `derive_next_prekey` of the recorded
`(prekey, iv)` pair afterwards. -/
def chainPrekey : Option (Nat × List Nat) → Nat
  | none => 0
  | some (prekey, iv) => derive_next_prekey prekey iv

/-! ## `libobfuscate/src/lib.rs`, `multi.rs`, `scramble.rs`

The C primitives (`Seg_descramble`, `Multi_CBC_decrypt`) are external
collaborators; they appear as opaque function parameters `descrambleFn` /
`multiFn`.  Their Rust wrappers — password length checks, interior-NUL
rejection, NUL padding to 32 bytes, and the `u32` length conversions that
panic — are embedded from the source. -/

/-- `libobfuscate::Error` (`lib.rs:28-31`). -/
inductive ObfError
  | passwordTooLong
  | containsNulByte
deriving DecidableEq

/-- `to_password_buffer` (`lib.rs:43-48`): `CString::new` rejects interior
NUL bytes; `Vec::resize` pads with NUL to 32 bytes (or truncates, though
callers check the length first). -/
def to_password_buffer (password : List Nat) : Except ObfError (List Nat) :=
  if password.contains 0 then .error .containsNulByte
  else .ok ((password ++ List.replicate (32 - password.length) 0).take 32)

/-- `scramble::descramble` (`scramble.rs:113-117` with `Scramble::new`,
`scramble.rs:34-55`): password length check, NUL check, then the opaque
in-place C descramble.  `block_size.try_into::<u32>().unwrap()` panics
(`none`) for buffers of `2^32` bytes or more. -/
def scramble_descramble (descrambleFn : List Nat → List Nat → Nat → List Nat)
    (data password : List Nat) (nonce : Nat) : Option (Except ObfError (List Nat)) :=
  if 32 < password.length then some (.error .passwordTooLong)
  else
    match to_password_buffer password with
    | .error e => some (.error e)
    | .ok buffer =>
      if data.length < 4294967296 then some (.ok (descrambleFn data buffer nonce))
      else none

/-- `multi::decrypt` (`multi.rs:144-154` with `Multi::new`,
`multi.rs:64-85`): both password lengths checked, both converted through
`to_password_buffer`, then the opaque in-place C decrypt.
`u32::try_from(data.len()).unwrap()` panics (`none`) for oversize buffers. -/
def multi_decrypt
    (multiFn : List Nat → List Nat → List Nat → List Nat → Nat → List Nat)
    (data ivs password1 password2 : List Nat) (nonce : Nat) :
    Option (Except ObfError (List Nat)) :=
  if 32 < password1.length ∨ 32 < password2.length then some (.error .passwordTooLong)
  else
    match to_password_buffer password1 with
    | .error e => some (.error e)
    | .ok buffer1 =>
      match to_password_buffer password2 with
      | .error e => some (.error e)
      | .ok buffer2 =>
        if data.length < 4294967296 then
          some (.ok (multiFn data ivs buffer1 buffer2 nonce))
        else none

/-! ## `librepuff/src/chain.rs`: the carrier decryption chain -/

/-- `librepuff::Error` (`lib.rs:34-40`).  Note the absence of a
`ContainsNulByte` variant. -/
inductive Error
  | ioError
  | unknownFiletype
  | carrierTooSmall
  | passwordTooLong
deriving DecidableEq

/-- `Passwords` (`passwords.rs:47-54`). -/
structure PasswordsM where
  a : List Nat
  b : List Nat
  c : List Nat
deriving DecidableEq

/-- `EncryptedCarrier` (`carrier.rs:100-108`). -/
structure EncryptedCarrierM where
  iv : List Nat
  data : List Nat
  decoy : List Nat
  otherBits : List Bool
deriving DecidableEq

/-- `CarrierEmbeddings` (`chain.rs:74-77`). -/
structure CarrierEmbeddingsM where
  data : List Nat
  decoy : List Nat
deriving DecidableEq

/-- `format!("{key:010}")` (`chain.rs:64`): the ten-character zero-padded
decimal representation, as ASCII bytes.  Keys are `u32` values, hence
below `10^10`, so the width is always exactly ten. -/
def format_key_password (key : Nat) : List Nat :=
  [key / 1000000000 % 10 + 48, key / 100000000 % 10 + 48, key / 10000000 % 10 + 48,
   key / 1000000 % 10 + 48, key / 100000 % 10 + 48, key / 10000 % 10 + 48,
   key / 1000 % 10 + 48, key / 100 % 10 + 48, key / 10 % 10 + 48, key % 10 + 48]

/-- `INITIALIZATION_VECTORS` (`chain.rs:45-62`): the fixed 16×16-byte IV
block used solely to decrypt the per-carrier encrypted IV, in cascade
order anubis…unicorn_a. -/
def initialization_vectors : List Nat :=
  [0xcd, 0xa0, 0x11, 0xe5, 0x83, 0x82, 0xe5, 0xb2, 0x84, 0x63, 0x9e, 0xc6, 0x49, 0x54, 0xdd, 0xd7,
   0x2f, 0xf4, 0x8b, 0x66, 0x58, 0xf7, 0x4b, 0x66, 0x19, 0x10, 0xf2, 0x05, 0x86, 0x51, 0x07, 0x64,
   0x0e, 0x81, 0xa1, 0x07, 0x19, 0xd1, 0x9e, 0x96, 0x51, 0xc7, 0x5a, 0xf3, 0xca, 0x72, 0x4a, 0x43,
   0x75, 0xd3, 0x57, 0xc7, 0x62, 0x97, 0x26, 0xb4, 0x07, 0x85, 0x3f, 0xf4, 0x99, 0xf4, 0x88, 0x71,
   0xa7, 0x87, 0x66, 0xd7, 0x67, 0xc4, 0x87, 0x74, 0xdc, 0x85, 0x1f, 0xc2, 0xf8, 0xa2, 0x74, 0xc4,
   0x98, 0x74, 0x7b, 0xe0, 0xb1, 0x00, 0x49, 0xc0, 0xce, 0x46, 0xa8, 0x34, 0xee, 0xd0, 0x47, 0x46,
   0x85, 0xe7, 0x8b, 0xd1, 0xba, 0xa1, 0x98, 0x04, 0x8f, 0xe2, 0x10, 0x16, 0x59, 0xa3, 0x2c, 0x76,
   0xcd, 0x64, 0x90, 0x46, 0x94, 0xd5, 0x0a, 0x85, 0x00, 0x56, 0x4a, 0x96, 0x1a, 0xf2, 0x16, 0xe2,
   0xa6, 0xd1, 0xfe, 0x45, 0xe0, 0xd6, 0x65, 0x10, 0x18, 0x42, 0xb2, 0x97, 0xe1, 0x66, 0x52, 0xe2,
   0x2d, 0xa3, 0xb3, 0x64, 0x3e, 0xc3, 0x4f, 0x52, 0x69, 0xc7, 0x46, 0x81, 0x94, 0x62, 0xb5, 0x75,
   0xd8, 0x30, 0xee, 0x85, 0xd0, 0x21, 0xbd, 0x24, 0xe1, 0x44, 0x3c, 0xc4, 0x73, 0x77, 0x0a, 0xd2,
   0x3a, 0xc0, 0x63, 0xd1, 0xa1, 0x22, 0x58, 0x90, 0x13, 0x36, 0x9d, 0xf0, 0x98, 0x06, 0x07, 0xf1,
   0x1c, 0x43, 0x55, 0xf5, 0xf6, 0xf7, 0x21, 0xd0, 0x40, 0x27, 0x09, 0x25, 0x2f, 0x71, 0xd2, 0x31,
   0xa5, 0x22, 0x6a, 0xc6, 0x91, 0x47, 0x66, 0xc3, 0xe7, 0x25, 0xc6, 0x26, 0x17, 0xe1, 0x7a, 0xf3,
   0xd7, 0xd5, 0xc0, 0x06, 0xa9, 0x21, 0xf6, 0x14, 0x7e, 0x14, 0x64, 0x83, 0x1c, 0x15, 0xab, 0x32,
   0xc0, 0x66, 0xb8, 0x23, 0xc0, 0xf6, 0xdf, 0x62, 0xa7, 0xc7, 0x60, 0x37, 0x88, 0xd1, 0xef, 0x95]

/-- `.unwrap()` on a wrapped libobfuscate result: an `Err` panics, and the
surrounding computation is already a panic (`none`). -/
def unwrapOk : Option (Except ObfError (List Nat)) → Option (List Nat)
  | some (.ok r) => some r
  | _ => none

/-- `decrypt_iv` (`chain.rs:63-67`): descramble then multi-decrypt the
256-byte encrypted IV under the key-derived password.  The source
`unwrap`s both results; an `Err` would panic, modelled as `none`. -/
def decrypt_iv (descrambleFn : List Nat → List Nat → Nat → List Nat)
    (multiFn : List Nat → List Nat → List Nat → List Nat → Nat → List Nat)
    (iv : List Nat) (key : Nat) : Option (List Nat) :=
  (unwrapOk (scramble_descramble descrambleFn iv (format_key_password key) key)).bind
    fun iv1 =>
      unwrapOk (multi_decrypt multiFn iv1 initialization_vectors
        (format_key_password key) (format_key_password key) key)

/-- `decrypt_content` (`chain.rs:69-72`): descramble under password C, then
multi-decrypt under passwords A and B.  Both results are `unwrap`ed in the
source; an `Err` (oversize or NUL-containing password) panics, modelled as
`none`. -/
def decrypt_content (descrambleFn : List Nat → List Nat → Nat → List Nat)
    (multiFn : List Nat → List Nat → List Nat → List Nat → Nat → List Nat)
    (content ivs : List Nat) (key : Nat) (passwords : PasswordsM) : Option (List Nat) :=
  (unwrapOk (scramble_descramble descrambleFn content passwords.c key)).bind
    fun content1 =>
      unwrapOk (multi_decrypt multiFn content1 ivs passwords.a passwords.b key)

/-- The loop body of `decrypt_carrier_chain` (`chain.rs:87-114`), with the
carrier position and the recorded `(prekey, iv)` pair as explicit state. -/
def decrypt_chain_go (descrambleFn : List Nat → List Nat → Nat → List Nat)
    (multiFn : List Nat → List Nat → List Nat → List Nat → Nat → List Nat)
    (passwords : PasswordsM) :
    List EncryptedCarrierM → Nat → Option (Nat × List Nat) →
      Option (List CarrierEmbeddingsM)
  | [], _, _ => some []
  | c :: rest, i, prev =>
    (derive_key i (chainPrekey prev)).bind fun key =>
      (decrypt_iv descrambleFn multiFn c.iv key).bind fun iv =>
        (decrypt_content descrambleFn multiFn c.data iv key passwords).bind fun data =>
          (decrypt_content descrambleFn multiFn c.decoy iv key passwords).bind fun decoy =>
            (decrypt_chain_go descrambleFn multiFn passwords rest (i + 1)
                (some (chainPrekey prev, iv))).map
              (fun embeddings => ⟨data, decoy⟩ :: embeddings)

/-- `decrypt_carrier_chain` (`chain.rs:79-117`). -/
def decrypt_carrier_chain (descrambleFn : List Nat → List Nat → Nat → List Nat)
    (multiFn : List Nat → List Nat → List Nat → List Nat → Nat → List Nat)
    (carriers : List EncryptedCarrierM) (passwords : PasswordsM) :
    Option (List CarrierEmbeddingsM) :=
  decrypt_chain_go descrambleFn multiFn passwords carriers 0 none

/-! ## `librepuff/src/passwords.rs`: `Passwords::from_fields` -/

/-- Length test applied by `from_fields` to an optional password. -/
def optTooLong : Option (List Nat) → Bool
  | some v => 32 < v.length
  | none => false

/-- `Passwords::from_fields` (`passwords.rs:57-112`).  The `warn!` calls are
log side effects without influence on the result and are omitted.  Only
passwords B and C are length-checked; password A is not.  Absent B and C
default to A. -/
def from_fields (a : List Nat) (b c : Option (List Nat)) : Except Error PasswordsM :=
  if optTooLong b then .error .passwordTooLong
  else if optTooLong c then .error .passwordTooLong
  else .ok ⟨a, b.getD a, c.getD a⟩

/-! ## `librepuff/src/bit_selection.rs` -/

/-- `BitSelection` (`bit_selection.rs:19-27`). -/
inductive BitSelection
  | minimum
  | veryLow
  | low
  | medium
  | high
  | veryHigh
  | maximum
deriving DecidableEq

/-- `BitSelection::divisor` (`bit_selection.rs:39-49`). -/
def BitSelection.divisor : BitSelection → Nat
  | .minimum => 8
  | .veryLow => 7
  | .low => 6
  | .medium => 5
  | .high => 4
  | .veryHigh => 3
  | .maximum => 2

/-! ## `librepuff/src/carrier.rs`: dewhitening, bit routing, packing

`generate_whitening_lookup_table` (`carrier.rs:30-95`) draws from the
external CSPRNG (Skein512, C code outside the crate), so the 2^13-entry
table appears as an opaque parameter `table : Nat → Nat`; only its use is
embedded. -/

/-- Assembly of one 13-bit chunk, first bit becoming the most significant
(`carrier.rs:153-159`: `chunk <<= 1; if bit { chunk |= 1 }`). -/
def chunkValue (bits : List Bool) : Nat :=
  bits.foldl (fun chunk b => 2 * chunk + (if b then 1 else 0)) 0

/-- The six unwhitened bits of a table entry, emitted MSB-first
(`carrier.rs:162-164`: `for j in (0..6).rev() { push(entry & (1 << j) != 0) }`). -/
def entryBits (entry : Nat) : List Bool :=
  (List.range 6).reverse.map (fun j => Nat.testBit entry j)

/-- The dewhitening loop (`carrier.rs:151-166`) with explicit fuel so the
kernel can evaluate it: each of the `floor(len/13)` non-overlapping 13-bit
chunks is looked up in the whitening table and expanded to 6 bits; trailing
bits are discarded.  One fuel unit is spent per chunk, so any
`fuel ≥ len / 13` is enough. -/
def dewhitenFuel (table : Nat → Nat) : Nat → List Bool → List Bool
  | 0, _ => []
  | fuel + 1, bits =>
    if 13 ≤ bits.length then
      entryBits (table (chunkValue (bits.take 13)))
        ++ dewhitenFuel table fuel (bits.drop 13)
    else []

/-- Dewhitening of the whitened bit vector (`carrier.rs:151-166`). -/
def dewhiten (table : Nat → Nat) (bits : List Bool) : List Bool :=
  dewhitenFuel table bits.length bits

/-- `pack_bits` (`carrier.rs:214-227`): allocate `(len + 7) / 8` zero bytes,
then for each bit shift the target byte left (`u8` wraps, hence `% 256`) and
or the bit in — MSB-first within each byte.  The same packing builds the
256-byte IV array (`carrier.rs:206-212`). -/
def packBits (bits : List Bool) : List Nat :=
  bits.enum.foldl
    (fun bytes p =>
      bytes.set (p.1 / 8)
        ((bytes.getD (p.1 / 8) 0 <<< 1) % 256 ||| (if p.2 then 1 else 0)))
    (List.replicate ((bits.length + 7) / 8) 0)

/-- The routing loop (`carrier.rs:188-202`): bit at stream offset `i` goes to
data when `i % D == 0`, to decoy when `i % D == 1`, otherwise to the filler
bits. -/
def splitStreams (D : Nat) : List Bool → Nat → List Bool × List Bool × List Bool
  | [], _ => ([], [], [])
  | b :: rest, i =>
    if i % D = 0 then
      (b :: (splitStreams D rest (i + 1)).1,
        (splitStreams D rest (i + 1)).2.1, (splitStreams D rest (i + 1)).2.2)
    else if i % D = 1 then
      ((splitStreams D rest (i + 1)).1,
        b :: (splitStreams D rest (i + 1)).2.1, (splitStreams D rest (i + 1)).2.2)
    else
      ((splitStreams D rest (i + 1)).1,
        (splitStreams D rest (i + 1)).2.1, b :: (splitStreams D rest (i + 1)).2.2)

/-- Errors of the carrier-routing stage.  `panicked` models the abort of a
checked (debug) build on the `usize` underflow `selected_bit_count - 1`
(`carrier.rs:189`) when `selected_bit_count == 0`. -/
inductive CarrierError
  | carrierTooSmall
  | panicked
deriving DecidableEq

/-- `((len - 2984) / divisor) & !0b1111111` (`carrier.rs:174-175`): the
selected bit count; the mask clears the 7 low bits, i.e. rounds down to a
multiple of 128. -/
def selected_bit_count_of (ulen divisor : Nat) : Nat :=
  (ulen - 2984) / divisor / 128 * 128

/-- The routing stage of `from_reader` (`carrier.rs:168-236`): size check
against the magic constant 2984, selected-bit-count computation, split into
the 2048 IV bits and the routed remainder, and packing. -/
def route_carrier (unwhitened : List Bool) (level : BitSelection) :
    Except CarrierError EncryptedCarrierM :=
  if unwhitened.length < 2984 then .error .carrierTooSmall
  else if selected_bit_count_of unwhitened.length level.divisor = 0 then
    -- `(selected_bit_count - 1) * divisor + 2` underflows `usize`
    .error .panicked
  else
    .ok ⟨packBits (unwhitened.take 2048),
      packBits (splitStreams level.divisor
        ((unwhitened.drop 2048).take
          ((selected_bit_count_of unwhitened.length level.divisor - 1)
              * level.divisor + 2)) 0).1,
      packBits (splitStreams level.divisor
        ((unwhitened.drop 2048).take
          ((selected_bit_count_of unwhitened.length level.divisor - 1)
              * level.divisor + 2)) 0).2.1,
      (splitStreams level.divisor
        ((unwhitened.drop 2048).take
          ((selected_bit_count_of unwhitened.length level.divisor - 1)
              * level.divisor + 2)) 0).2.2⟩

/-- `from_reader` (`carrier.rs:138-237`) from the parsed whitened bit vector
on: dewhiten through the (opaque, CSPRNG-generated) table, then route.  The
first 2048 unwhitened bits become the encrypted IV (the 12-byte container
prefix and sample selection happen in the parser, §wav). -/
def from_reader (table : Nat → Nat) (whitened : List Bool) (level : BitSelection) :
    Except CarrierError EncryptedCarrierM :=
  route_carrier (dewhiten table whitened) level

/-- The carrier produced by `from_reader` on 7020 whitened all-zero bits with
an all-zero whitening table, at maximum density. -/
def c2WitnessCarrier : EncryptedCarrierM :=
  ⟨packBits ((dewhiten (fun _ => 0) (List.replicate 7020 false)).take 2048),
    packBits (splitStreams 2
      (((dewhiten (fun _ => 0) (List.replicate 7020 false)).drop 2048).take 256) 0).1,
    packBits (splitStreams 2
      (((dewhiten (fun _ => 0) (List.replicate 7020 false)).drop 2048).take 256) 0).2.1,
    (splitStreams 2
      (((dewhiten (fun _ => 0) (List.replicate 7020 false)).drop 2048).take 256) 0).2.2⟩

/-! ## `librepuff/src/carrier_type.rs` -/

/-- `CarrierType` (`carrier_type.rs:20-35`). -/
inductive CarrierType
  | threeGp
  | aiff
  | flv
  | jpeg
  | mp3
  | mp4
  | au
  | pcx
  | pdf
  | png
  | swf
  | tga
  | vob
  | wav
deriving DecidableEq

/-- `CarrierType::from_extension` (`carrier_type.rs:55-74`): exact match on
the listed extension strings. -/
def CarrierType.from_extension (extension : String) : Option CarrierType :=
  match extension with
  | "3gp" | "3gpp" | "3g2" | "3gp2" => some .threeGp
  | "aif" | "aiff" => some .aiff
  | "flv" | "f4v" | "f4p" | "f4a" | "f4b" => some .flv
  | "jpg" | "jpe" | "jpeg" | "jfif" => some .jpeg
  | "mp3" => some .mp3
  | "mp4" | "mpg4" | "mpeg4" | "m4a" | "m4v" | "mp4a" => some .mp4
  | "au" | "snd" => some .au
  | "pcx" => some .pcx
  | "pdf" => some .pdf
  | "png" => some .png
  | "swf" => some .swf
  | "tga" | "vda" | "icb" | "vst" => some .tga
  | "vob" => some .vob
  | "wav" | "wave" => some .wav
  | _ => none

/-- ASCII lowercasing of one character, as in the claim's wording (and Rust's
`to_ascii_lowercase`). -/
def asciiLowerChar (c : Char) : Char :=
  if 'A' ≤ c ∧ c ≤ 'Z' then Char.ofNat (c.toNat + 32) else c

/-- ASCII lowercasing of a string (characterwise over the underlying
character list). -/
def asciiLowerString (s : String) : String := ⟨s.data.map asciiLowerChar⟩

/-! ## `librepuff/src/crc32.rs` -/

/-- `update_with_bit` (`crc32.rs:22-28`) over the custom polynomial
`0x2608edb`; `u32` shifts drop bits above bit 31 (`% 2^32`). -/
def update_with_bit (crc32 : Nat) (bit : Bool) : Nat :=
  if ((crc32 >>> 31 == 1) != bit) then ((crc32 ^^^ 0x2608edb) <<< 1 ||| 1) % 4294967296
  else (crc32 <<< 1) % 4294967296

/-- `update_with_byte` (`crc32.rs:30-34`): bits fed most significant first. -/
def update_with_byte (crc32 byte : Nat) : Nat :=
  (List.range 8).reverse.foldl
    (fun c i => update_with_bit c (byte &&& (1 <<< i) != 0)) crc32

/-- `crc32::compute` (`crc32.rs:36-43`): register initialized to
`0xffffffff`, no final XOR. -/
def crc32_compute (data : List Nat) : Nat :=
  data.foldl update_with_byte 0xffffffff

/-! ## `librepuff/src/embedded_file.rs` -/

/-- `EmbeddedFile` (`embedded_file.rs:22-29`). -/
structure EmbeddedFileM where
  filename : List Nat
  content : List Nat
  crc32 : Nat
  remaining_bytes : List Nat
deriving DecidableEq

/-- `cursor.read_u16::<LittleEndian>()` at offset 0 (`embedded_file.rs:43`). -/
def filename_length (bits : List Nat) : Nat :=
  bits.getD 0 0 + 256 * bits.getD 1 0

/-- `cursor.read_u32::<LittleEndian>()` at offset 2 (`embedded_file.rs:44`). -/
def content_size (bits : List Nat) : Nat :=
  bits.getD 2 0 + 256 * bits.getD 3 0 + 65536 * bits.getD 4 0
    + 16777216 * bits.getD 5 0

/-- `cursor.read_u32::<LittleEndian>()` at offset 6 (`embedded_file.rs:45`). -/
def stored_crc32 (bits : List Nat) : Nat :=
  bits.getD 6 0 + 256 * bits.getD 7 0 + 65536 * bits.getD 8 0
    + 16777216 * bits.getD 9 0

/-- `EmbeddedFile::from_bits` (`embedded_file.rs:35-74`): 10-byte header
(`u16` filename length, `u32` content size, `u32` crc32, little-endian),
then filename and content slices; `None` on insufficient length or CRC
mismatch. -/
def EmbeddedFile.from_bits (bits : List Nat) : Option EmbeddedFileM :=
  if bits.length < 10 then none
  else if bits.length < 10 + content_size bits + filename_length bits then none
  else if stored_crc32 bits
      ≠ crc32_compute ((bits.drop (10 + filename_length bits)).take (content_size bits))
    then none
  else
    some ⟨(bits.drop 10).take (filename_length bits),
      (bits.drop (10 + filename_length bits)).take (content_size bits),
      stored_crc32 bits,
      bits.drop (10 + filename_length bits + content_size bits)⟩

/-! ## `librepuff/src/parser/wav.rs`

The reader is a byte list consumed from the front; `UnexpectedEof` on any
read maps to `InvalidFormat` (`parser.rs:24-33`).  `u32`/`u16` arithmetic
that a checked (debug) build would abort on — counter overflow, the
`subchunk_size - 16` underflow, division by a zero `block_align` or
`num_channels` — yields the `panicked` outcome. -/

/-- `ParsingError` plus the checked-arithmetic abort and fuel exhaustion
(the latter unreachable: every loop iteration advances `data_read` by at
least 8). -/
inductive WavError
  | invalidFormat
  | panicked
  | fuelOut
deriving DecidableEq

/-- `read_exact` of `n` bytes. -/
def readBytes (n : Nat) (s : List Nat) : Option (List Nat × List Nat) :=
  if n ≤ s.length then some (s.take n, s.drop n) else none

/-- `read_u16::<LittleEndian>`. -/
def readU16LEs : List Nat → Option (Nat × List Nat)
  | b0 :: b1 :: r => some (b0 + 256 * b1, r)
  | _ => none

/-- `read_u32::<LittleEndian>`. -/
def readU32LEs : List Nat → Option (Nat × List Nat)
  | b0 :: b1 :: b2 :: b3 :: r =>
    some (b0 + 256 * b1 + 65536 * b2 + 16777216 * b3, r)
  | _ => none

/-- `u8::to_ascii_lowercase`. -/
def lowerByte (b : Nat) : Nat := if 65 ≤ b ∧ b ≤ 90 then b + 32 else b

/-- `<[u8]>::eq_ignore_ascii_case`. -/
def eqIgnoreAsciiCase (xs ys : List Nat) : Bool :=
  xs.length == ys.length
    && (List.zip xs ys).all (fun p => lowerByte p.1 == lowerByte p.2)

/-- `should_choose_sample` (`wav.rs:36-42`): clear the sign bit, count ones
above `first_relevant_bit - 1`, select iff the count is in
`[1, 14 - first_relevant_bit]`. -/
def should_choose_sample (sample firstRelevantBit : Nat) : Bool :=
  decide (0 < countOnes ((sample &&& 0x7fff) >>> (firstRelevantBit - 1)))
    && decide (countOnes ((sample &&& 0x7fff) >>> (firstRelevantBit - 1))
        ≤ 14 - firstRelevantBit)

/-- `extract_bits_from_data` (`wav.rs:45-60`): read `samples_count` 16-bit
little-endian samples, appending bit 0 of each selected sample. -/
def extract_bits_from_data : Nat → List Nat → Option (List Bool × List Nat)
  | 0, s => some ([], s)
  | n + 1, s =>
    match readU16LEs s with
    | none => none
    | some (sample, s1) =>
      match extract_bits_from_data n s1 with
      | none => none
      | some (bits, s2) =>
        if should_choose_sample sample 4 then some ((sample &&& 1 == 1) :: bits, s2)
        else some (bits, s2)

/-- `Metadata` (`wav.rs:25-33`). -/
structure WavMetadata where
  audio_format : Nat
  num_channels : Nat
  sample_rate : Nat
  byte_rate : Nat
  block_align : Nat
  bits_per_sample : Nat
deriving DecidableEq

/-- The six `fmt ` header fields (`wav.rs:129-134`). -/
def readFmtFields (s : List Nat) : Option (WavMetadata × List Nat) :=
  (readU16LEs s).bind fun p1 =>
    (readU16LEs p1.2).bind fun p2 =>
      (readU32LEs p2.2).bind fun p3 =>
        (readU32LEs p3.2).bind fun p4 =>
          (readU16LEs p4.2).bind fun p5 =>
            (readU16LEs p5.2).map fun p6 =>
              (⟨p1.1, p2.1, p3.1, p4.1, p5.1, p6.1⟩, p6.2)

/-- The subchunk loop of `parse` (`wav.rs:106-206`), with explicit fuel.
Returns the optional extracted bits and the remaining stream. -/
def wavLoop : Nat → List Nat → Nat → Nat → WavMetadata → Bool → Bool →
    Option (List Bool) → Except WavError (Option (List Bool) × List Nat)
  | 0, _, _, _, _, _, _, _ => .error .fuelOut
  | fuel + 1, s, dataSize, dataRead, meta, processedFmt, processedData, bitStorage =>
    if dataRead < dataSize then
      match readBytes 4 s with
      | none => .error .invalidFormat
      | some (subchunkId, s) =>
        -- data_read += 4
        if eqIgnoreAsciiCase subchunkId [0x66, 0x6d, 0x74, 0x20] then -- "fmt "
          if processedFmt then .error .invalidFormat
          else
            match readU32LEs s with
            | none => .error .invalidFormat
            | some (subchunkSize, s) =>
              if subchunkSize &&& 0x80000000 != 0 then .error .invalidFormat
              else
                match readFmtFields s with
                | none => .error .invalidFormat
                | some (meta, s) =>
                  -- `block_align / num_channels`: u16 division by zero aborts
                  if meta.num_channels = 0 then .error .panicked
                  else if meta.audio_format ≠ 1 ∨ meta.num_channels = 0
                      ∨ meta.block_align / meta.num_channels * 8 ≠ 16 then
                    .error .invalidFormat
                  else
                    -- data_read += 4 + 16; skip to min(data_read + size - 16, data_size)
                    if dataRead + 4 + 4 + 16 + subchunkSize ≥ 4294967296 then .error .panicked
                    else
                      match readBytes
                          (min (dataRead + 4 + 4 + 16 + subchunkSize - 16) dataSize
                            - (dataRead + 4 + 4 + 16)) s with
                      | none => .error .invalidFormat
                      | some (_, s) =>
                        -- data_read += subchunk_size - 16 (u16 underflow aborts)
                        if subchunkSize < 16 then .error .panicked
                        else
                          wavLoop fuel s dataSize
                            (dataRead + 4 + 4 + 16 + (subchunkSize - 16)) meta
                            true processedData bitStorage
        else if eqIgnoreAsciiCase subchunkId [0x64, 0x61, 0x74, 0x61] then -- "data"
          if processedData ∨ processedFmt = false then .error .invalidFormat
          else
            match readU32LEs s with
            | none => .error .invalidFormat
            | some (subchunkSize, s) =>
              -- data_read += 4
              if subchunkSize = 0 then .error .invalidFormat
              else if meta.block_align = 0 then .error .panicked
              else if subchunkSize / meta.block_align * meta.num_channels
                  ≥ 4294967296 then .error .panicked
              else if subchunkSize / meta.block_align * meta.num_channels = 0 then
                .error .invalidFormat
              else
                match extract_bits_from_data
                    (subchunkSize / meta.block_align * meta.num_channels) s with
                | none => .error .invalidFormat
                | some (bits, s) =>
                  -- data_read += subchunk_size
                  if dataRead + 4 + 4 + subchunkSize ≥ 4294967296 then .error .panicked
                  else
                    wavLoop fuel s dataSize (dataRead + 4 + 4 + subchunkSize) meta
                      processedFmt true (some bits)
        else
          match readU32LEs s with
          | none => .error .invalidFormat
          | some (subchunkSize, s) =>
            -- data_read += 4
            if subchunkSize &&& 0x80000000 != 0 then .error .invalidFormat
            else if dataRead + 4 + 4 + subchunkSize ≥ 4294967296 then .error .panicked
            else
              match readBytes
                  (min (dataRead + 4 + 4 + subchunkSize) dataSize - (dataRead + 4 + 4))
                  s with
              | none => .error .invalidFormat
              | some (_, s) =>
                wavLoop fuel s dataSize (dataRead + 4 + 4 + subchunkSize) meta
                  processedFmt processedData bitStorage
    else .ok (bitStorage, s)

/-- `parse` (`wav.rs:62-215`): RIFF magic (ASCII-case-insensitive), chunk
size with high bit clear and at least 4, WAVE form type, then the subchunk
loop; a missing `data` subchunk yields an empty bit vector.  Returns the
extracted bits and the remaining (unconsumed) stream. -/
def wav_parse (input : List Nat) : Except WavError (List Bool × List Nat) :=
  match readBytes 4 input with
  | none => .error .invalidFormat
  | some (chunkId, s) =>
    if eqIgnoreAsciiCase chunkId [0x52, 0x49, 0x46, 0x46] = false then -- "RIFF"
      .error .invalidFormat
    else
      match readU32LEs s with
      | none => .error .invalidFormat
      | some (chunkSize, s) =>
        if chunkSize &&& 0x80000000 != 0 then .error .invalidFormat
        else if chunkSize < 4 then .error .invalidFormat
        else
          match readBytes 4 s with
          | none => .error .invalidFormat
          | some (format, s) =>
            if eqIgnoreAsciiCase format [0x57, 0x41, 0x56, 0x45] = false then -- "WAVE"
              .error .invalidFormat
            else
              match wavLoop (chunkSize - 4 + 1) s (chunkSize - 4) 0
                  ⟨0, 0, 0, 0, 0, 0⟩ false false none with
              | .error e => .error e
              | .ok (bitStorage, rest) => .ok (bitStorage.getD [], rest)

/-! ## Theorems -/

theorem countOnes_zero : countOnes 0 = 0 := rfl

theorem xor_self_countOnes (a : Nat) : countOnes (a ^^^ a) = 0 := by
  rw [Nat.xor_self, countOnes_zero]

/-- Sanity check against the repository's `hamming_distances` test:
`compute_hamming_distance(b"aaaaaaaa", b"aaaaaaab") == 3`. -/
theorem hamming_test_vector_one :
    compute_hamming_distance [97, 97, 97, 97, 97, 97, 97, 97]
      [97, 97, 97, 97, 97, 97, 97, 98] = 3 := by decide

/-- Sanity check against the repository's `hamming_distances` test:
`compute_hamming_distance(b"aaaaaaaa", b"aaaaaaaaa") == 4` (zero padding). -/
theorem hamming_test_vector_two :
    compute_hamming_distance [97, 97, 97, 97, 97, 97, 97, 97]
      [97, 97, 97, 97, 97, 97, 97, 97, 97] = 4 := by decide

/-- Two folds over the same list agree when their step functions agree. -/
theorem foldl_congr_fn {α β : Type} (f g : β → α → β) (l : List α) (b : β)
    (h : ∀ acc x, f acc x = g acc x) : l.foldl f b = l.foldl g b := by
  induction l generalizing b with
  | nil => rfl
  | cons x xs ih => simp only [List.foldl_cons, h, ih]

/-- A step-wise 16-bit wrapping accumulation equals the plain sum reduced
modulo `2^16`. -/
theorem foldl_mod_eq_sum_mod (f : Nat → Nat) (l : List Nat) (a : Nat) :
    l.foldl (fun acc b => (acc + f b) % 65536) (a % 65536)
      = (a + (l.map f).sum) % 65536 := by
  induction l generalizing a with
  | nil => simp
  | cons x xs ih =>
    simp only [List.foldl_cons, List.map_cons, List.sum_cons]
    have : (a % 65536 + f x) % 65536 = (a + f x) % 65536 := by
      conv_rhs => rw [Nat.add_mod]
      rw [Nat.add_mod, Nat.mod_mod_of_dvd]
      exact Dvd.intro 1 rfl
    rw [this, ih (a + f x), Nat.add_assoc]

/-- C9: the normalized Hamming distance on password byte strings is
symmetric — for all byte strings `x` and `y`,
`compute_hamming_distance x y = compute_hamming_distance y x` — and
`compute_hamming_distance x x = 0` for every non-empty byte string `x`. -/
theorem hamming_distance_symm_and_self_zero :
    (∀ x y : List Nat, compute_hamming_distance x y = compute_hamming_distance y x) ∧
    (∀ x : List Nat, x ≠ [] → compute_hamming_distance x x = 0) := by
  constructor
  · intro x y
    unfold compute_hamming_distance
    rw [Nat.max_comm x.length y.length,
      foldl_congr_fn _ (fun acc i => acc + countOnes (y.getD i 0 ^^^ x.getD i 0)) _ _
        (fun acc i => show acc + countOnes (x.getD i 0 ^^^ y.getD i 0)
          = acc + countOnes (y.getD i 0 ^^^ x.getD i 0) from by rw [Nat.xor_comm])]
  · intro x _
    unfold compute_hamming_distance
    rw [foldl_congr_fn _ (fun acc _ => acc) _ _
      (fun acc i => show acc + countOnes (x.getD i 0 ^^^ x.getD i 0) = acc from by
        rw [xor_self_countOnes, Nat.add_zero])]
    rw [List.foldl_fixed]
    simp

/-- Witness for C9 at concrete inputs. -/
theorem hamming_distance_symm_and_self_zero_witness :
    compute_hamming_distance [97, 98] [97, 98] = 0 :=
  hamming_distance_symm_and_self_zero.2 [97, 98] (by decide)

/-- C1: the chain decryptor derives `prekey_0 = 0`; for later carriers the
prekey is `(prekey_prev + Σ gIv(iv_prev[j])) mod 2^16` (the code accumulates
with 16-bit wrapping additions, which equals the plain sum reduced mod 2^16);
and `key_i = prekey_i * 2^16 + 0x502239C3 + i` as a 32-bit wrapping sum,
defined (no overflow failure) for every IV byte list and every 16-bit
prekey. -/
theorem chain_key_derivation :
    chainPrekey none = 0 ∧
    (∀ (p : Nat) (iv : List Nat),
      chainPrekey (some (p, iv)) = (p + (iv.map gIv).sum) % 65536) ∧
    (∀ i p : Nat, i < 4294967296 → p < 65536 →
      derive_key i p = some ((p * 65536 + 0x502239c3 + i) % 4294967296)) := by
  refine ⟨rfl, ?_, ?_⟩
  · intro p iv
    show derive_next_prekey p iv = (p + (iv.map gIv).sum) % 65536
    unfold derive_next_prekey
    have h0 : (0 : Nat) = 0 % 65536 := rfl
    rw [h0, foldl_mod_eq_sum_mod gIv iv 0, Nat.zero_add]
    omega
  · intro i p hi hp
    unfold derive_key
    rw [if_pos hi]
    have h1 : p % 65536 = p := Nat.mod_eq_of_lt hp
    have h2 : p * 65536 % 4294967296 = p * 65536 :=
      Nat.mod_eq_of_lt (by omega)
    rw [h1, h2, Nat.mod_add_mod]

/-- Witness for C1's key-derivation clause at a concrete input. -/
theorem chain_key_derivation_witness :
    derive_key 3 5 = some ((5 * 65536 + 0x502239c3 + 3) % 4294967296) :=
  chain_key_derivation.2.2 3 5 (by decide) (by decide)

/-! ## Properties of the decryption chain -/

theorem to_password_buffer_eq_ok (p buffer : List Nat)
    (h : to_password_buffer p = .ok buffer) :
    p.contains 0 = false ∧
      buffer = (p ++ List.replicate (32 - p.length) 0).take 32 := by
  unfold to_password_buffer at h
  cases hc : p.contains 0 with
  | true => rw [hc] at h; simp at h
  | false =>
    rw [hc] at h
    simp at h
    exact ⟨rfl, h.symm⟩

theorem unwrapOk_eq_some (x : Option (Except ObfError (List Nat))) (r : List Nat)
    (h : unwrapOk x = some r) : x = some (.ok r) := by
  cases x with
  | none => exact absurd h (by simp [unwrapOk])
  | some e =>
    cases e with
    | error e2 => exact absurd h (by simp [unwrapOk])
    | ok r2 =>
      have hr : r2 = r := Option.some.inj h
      rw [hr]

theorem scramble_descramble_ok (fn : List Nat → List Nat → Nat → List Nat)
    (d p : List Nat) (n : Nat) (r : List Nat)
    (h : scramble_descramble fn d p n = some (.ok r)) :
    p.contains 0 = false ∧
      r = fn d ((p ++ List.replicate (32 - p.length) 0).take 32) n := by
  unfold scramble_descramble at h
  split_ifs at h with h1 h2
  · exact absurd (Option.some.inj h) (by simp)
  · split at h
    · exact absurd (Option.some.inj h) (by simp)
    · rename_i buffer heq
      obtain ⟨hc, hbuf⟩ := to_password_buffer_eq_ok p buffer heq
      exact ⟨hc, by rw [← Except.ok.inj (Option.some.inj h), hbuf]⟩
  · split at h
    · exact absurd (Option.some.inj h) (by simp)
    · exact absurd h (by simp)

theorem multi_decrypt_ok
    (fn : List Nat → List Nat → List Nat → List Nat → Nat → List Nat)
    (d ivs p1 p2 : List Nat) (n : Nat) (r : List Nat)
    (h : multi_decrypt fn d ivs p1 p2 n = some (.ok r)) :
    p1.contains 0 = false ∧ p2.contains 0 = false ∧
      r = fn d ivs ((p1 ++ List.replicate (32 - p1.length) 0).take 32)
            ((p2 ++ List.replicate (32 - p2.length) 0).take 32) n := by
  unfold multi_decrypt at h
  split_ifs at h with h1 h2
  · exact absurd (Option.some.inj h) (by simp)
  · split at h
    · exact absurd (Option.some.inj h) (by simp)
    · rename_i buffer1 heq1
      split at h
      · exact absurd (Option.some.inj h) (by simp)
      · rename_i buffer2 heq2
        obtain ⟨hc1, hb1⟩ := to_password_buffer_eq_ok p1 buffer1 heq1
        obtain ⟨hc2, hb2⟩ := to_password_buffer_eq_ok p2 buffer2 heq2
        refine ⟨hc1, hc2, ?_⟩
        rw [← Except.ok.inj (Option.some.inj h), hb1, hb2]
  · split at h
    · exact absurd (Option.some.inj h) (by simp)
    · rename_i buffer1 heq1
      split at h
      · exact absurd (Option.some.inj h) (by simp)
      · exact absurd h (by simp)

theorem decrypt_content_some (fnS : List Nat → List Nat → Nat → List Nat)
    (fnM : List Nat → List Nat → List Nat → List Nat → Nat → List Nat)
    (content ivs : List Nat) (key : Nat) (pw : PasswordsM) (out : List Nat)
    (h : decrypt_content fnS fnM content ivs key pw = some out) :
    pw.a.contains 0 = false ∧ pw.b.contains 0 = false ∧ pw.c.contains 0 = false ∧
      out = fnM (fnS content ((pw.c ++ List.replicate (32 - pw.c.length) 0).take 32) key)
              ivs ((pw.a ++ List.replicate (32 - pw.a.length) 0).take 32)
              ((pw.b ++ List.replicate (32 - pw.b.length) 0).take 32) key := by
  unfold decrypt_content at h
  obtain ⟨content1, h1, h2⟩ := Option.bind_eq_some.mp h
  have hs := unwrapOk_eq_some _ _ h1
  have hm := unwrapOk_eq_some _ _ h2
  obtain ⟨hcNul, hc1⟩ := scramble_descramble_ok fnS content pw.c key content1 hs
  obtain ⟨haNul, hbNul, hc2⟩ := multi_decrypt_ok fnM content1 ivs pw.a pw.b key out hm
  exact ⟨haNul, hbNul, hcNul, by rw [hc2, hc1]⟩

/-- In-place decryption preserves buffer lengths (the `&mut [u8]` discipline
of the C wrappers, supplied as hypotheses on the opaque primitives). -/
theorem decrypt_content_length (fnS : List Nat → List Nat → Nat → List Nat)
    (fnM : List Nat → List Nat → List Nat → List Nat → Nat → List Nat)
    (hS : ∀ d p n, (fnS d p n).length = d.length)
    (hM : ∀ d i p1 p2 n, (fnM d i p1 p2 n).length = d.length)
    (content ivs : List Nat) (key : Nat) (pw : PasswordsM) (out : List Nat)
    (h : decrypt_content fnS fnM content ivs key pw = some out) :
    out.length = content.length := by
  obtain ⟨-, -, -, hout⟩ := decrypt_content_some fnS fnM content ivs key pw out h
  rw [hout, hM, hS]

theorem decrypt_chain_go_lengths (fnS : List Nat → List Nat → Nat → List Nat)
    (fnM : List Nat → List Nat → List Nat → List Nat → Nat → List Nat)
    (pw : PasswordsM)
    (hS : ∀ d p n, (fnS d p n).length = d.length)
    (hM : ∀ d i p1 p2 n, (fnM d i p1 p2 n).length = d.length) :
    ∀ (carriers : List EncryptedCarrierM) (i : Nat) (prev : Option (Nat × List Nat))
      (res : List CarrierEmbeddingsM),
      decrypt_chain_go fnS fnM pw carriers i prev = some res →
      res.length = carriers.length ∧
      ∀ k, k < carriers.length →
        (res.getD k ⟨[], []⟩).data.length = (carriers.getD k ⟨[], [], [], []⟩).data.length ∧
        (res.getD k ⟨[], []⟩).decoy.length = (carriers.getD k ⟨[], [], [], []⟩).decoy.length := by
  intro carriers
  induction carriers with
  | nil =>
    intro i prev res h
    simp only [decrypt_chain_go] at h
    exact ⟨by rw [← Option.some.inj h]; rfl, fun k hk => absurd hk (by simp)⟩
  | cons c rest ih =>
    intro i prev res h
    simp only [decrypt_chain_go] at h
    obtain ⟨key, hk, h⟩ := Option.bind_eq_some.mp h
    obtain ⟨iv, hiv, h⟩ := Option.bind_eq_some.mp h
    obtain ⟨dataOut, hdd, h⟩ := Option.bind_eq_some.mp h
    obtain ⟨decoyOut, hdy, h⟩ := Option.bind_eq_some.mp h
    obtain ⟨res2, hgo, hres⟩ := Option.map_eq_some'.mp h
    obtain ⟨hlen, hidx⟩ := ih (i + 1) (some (chainPrekey prev, iv)) res2 hgo
    subst hres
    refine ⟨by simpa using hlen, ?_⟩
    intro k hk2
    cases k with
    | zero =>
      simp only [List.getD_cons_zero]
      exact ⟨decrypt_content_length fnS fnM hS hM c.data iv key pw dataOut hdd,
        decrypt_content_length fnS fnM hS hM c.decoy iv key pw decoyOut hdy⟩
    | succ k2 =>
      simp only [List.getD_cons_succ]
      exact hidx k2 (by simpa using hk2)

/-- C10: for every carrier list and password triple, a non-panicking run of
`decrypt_carrier_chain` (with arbitrary length-preserving in-place
primitives) yields exactly one `CarrierEmbeddings` per input carrier, in
the same order, with decrypted `data` and `decoy` of exactly the lengths of
the encrypted inputs. -/
theorem decrypt_carrier_chain_shape (fnS : List Nat → List Nat → Nat → List Nat)
    (fnM : List Nat → List Nat → List Nat → List Nat → Nat → List Nat)
    (hS : ∀ d p n, (fnS d p n).length = d.length)
    (hM : ∀ d i p1 p2 n, (fnM d i p1 p2 n).length = d.length)
    (carriers : List EncryptedCarrierM) (pw : PasswordsM) (res : List CarrierEmbeddingsM)
    (h : decrypt_carrier_chain fnS fnM carriers pw = some res) :
    res.length = carriers.length ∧
    ∀ k, k < carriers.length →
      (res.getD k ⟨[], []⟩).data.length = (carriers.getD k ⟨[], [], [], []⟩).data.length ∧
      (res.getD k ⟨[], []⟩).decoy.length = (carriers.getD k ⟨[], [], [], []⟩).decoy.length :=
  decrypt_chain_go_lengths fnS fnM pw hS hM carriers 0 none res h

/-- Witness for C10: a concrete one-carrier run with identity primitives. -/
theorem decrypt_carrier_chain_shape_witness :
    ([(⟨[5, 6], [7, 8]⟩ : CarrierEmbeddingsM)]).length
        = ([(⟨[0], [5, 6], [7, 8], []⟩ : EncryptedCarrierM)]).length ∧
      ∀ k, k < ([(⟨[0], [5, 6], [7, 8], []⟩ : EncryptedCarrierM)]).length →
        (([(⟨[5, 6], [7, 8]⟩ : CarrierEmbeddingsM)]).getD k ⟨[], []⟩).data.length
            = (([(⟨[0], [5, 6], [7, 8], []⟩ : EncryptedCarrierM)]).getD k
                ⟨[], [], [], []⟩).data.length ∧
        (([(⟨[5, 6], [7, 8]⟩ : CarrierEmbeddingsM)]).getD k ⟨[], []⟩).decoy.length
            = (([(⟨[0], [5, 6], [7, 8], []⟩ : EncryptedCarrierM)]).getD k
                ⟨[], [], [], []⟩).decoy.length :=
  decrypt_carrier_chain_shape (fun d _ _ => d) (fun d _ _ _ _ => d)
    (fun _ _ _ => rfl) (fun _ _ _ _ _ => rfl)
    [⟨[0], [5, 6], [7, 8], []⟩] ⟨[97], [98], [99]⟩
    [⟨[5, 6], [7, 8]⟩] (by decide)

/-- C7 counterexample: with password C containing an interior NUL byte, the
extraction run panics (`none`): no `ContainsNulByte` error is surfaced —
indeed `decrypt_carrier_chain` returns a bare `Vec` and `librepuff::Error`
has no such variant. -/
theorem nul_password_counterexample :
    decrypt_carrier_chain (fun d _ _ => d) (fun d _ _ _ _ => d)
      [⟨[0], [1], [2], []⟩] ⟨[97], [98], [99, 0, 100]⟩ = none := by decide

/-- C7 amended: a password with an interior NUL makes the chain decryption
panic on the `unwrap` of the libobfuscate error rather than surface an
error, for any carrier list with at least one carrier and any opaque
primitives. -/
theorem nul_password_chain_panics (fnS : List Nat → List Nat → Nat → List Nat)
    (fnM : List Nat → List Nat → List Nat → List Nat → Nat → List Nat)
    (pw : PasswordsM) (c : EncryptedCarrierM) (rest : List EncryptedCarrierM)
    (h : pw.a.contains 0 = true ∨ pw.b.contains 0 = true ∨ pw.c.contains 0 = true) :
    decrypt_carrier_chain fnS fnM (c :: rest) pw = none := by
  unfold decrypt_carrier_chain
  simp only [decrypt_chain_go]
  have hk : derive_key 0 (chainPrekey none) = some 0x502239c3 := by decide
  rw [hk, Option.some_bind]
  cases hiv : decrypt_iv fnS fnM c.iv 0x502239c3 with
  | none => rfl
  | some iv =>
    rw [Option.some_bind]
    cases hdc : decrypt_content fnS fnM c.data iv 0x502239c3 pw with
    | none => rfl
    | some out =>
      exfalso
      obtain ⟨ha, hb, hc, -⟩ :=
        decrypt_content_some fnS fnM c.data iv 0x502239c3 pw out hdc
      rcases h with h | h | h
      · rw [ha] at h; exact absurd h (by simp)
      · rw [hb] at h; exact absurd h (by simp)
      · rw [hc] at h; exact absurd h (by simp)

/-- Witness for the amended C7 at a concrete input. -/
theorem nul_password_chain_panics_witness :
    decrypt_carrier_chain (fun d _ _ => d) (fun d _ _ _ _ => d)
      [⟨[0], [1], [2], []⟩] ⟨[97, 0], [98], [99]⟩ = none :=
  nul_password_chain_panics (fun d _ _ => d) (fun d _ _ _ _ => d)
    ⟨[97, 0], [98], [99]⟩ ⟨[0], [1], [2], []⟩ [] (Or.inl (by decide))

/-- C3 (code bug): `Passwords::from_fields` never length-checks password A.
A 33-byte password A with B and C absent is accepted by validation and
defaulted into all three slots; the subsequent chain decryption then
panics on the `unwrap` of `Err(PasswordTooLong)` from the scrambler
instead of surfacing the error. -/
theorem from_fields_accepts_long_password_a :
    from_fields (List.replicate 33 97) none none
        = .ok ⟨List.replicate 33 97, List.replicate 33 97, List.replicate 33 97⟩ ∧
      decrypt_carrier_chain (fun d _ _ => d) (fun d _ _ _ _ => d)
        [⟨[0], [1], [2], []⟩]
        ⟨List.replicate 33 97, List.replicate 33 97, List.replicate 33 97⟩ = none :=
  ⟨rfl, by decide⟩

theorem BitSelection.two_le_divisor (level : BitSelection) : 2 ≤ level.divisor := by
  cases level <;> decide

/-! ## Length facts for the carrier pipeline -/

theorem entryBits_length (entry : Nat) : (entryBits entry).length = 6 := by
  simp [entryBits]

theorem dewhitenFuel_length (table : Nat → Nat) :
    ∀ (fuel : Nat) (bits : List Bool), bits.length / 13 ≤ fuel →
      (dewhitenFuel table fuel bits).length = 6 * (bits.length / 13) := by
  intro fuel
  induction fuel with
  | zero =>
    intro bits h
    have h0 : bits.length / 13 = 0 := Nat.le_zero.mp h
    simp [dewhitenFuel, h0]
  | succ n ih =>
    intro bits h
    by_cases h13 : 13 ≤ bits.length
    · simp only [dewhitenFuel, if_pos h13, List.length_append]
      have hd : (bits.drop 13).length = bits.length - 13 := List.length_drop _ _
      have hdiv : bits.length / 13 = (bits.length - 13) / 13 + 1 :=
        Nat.div_eq_sub_div (by norm_num) h13
      have hrec := ih (bits.drop 13) (by rw [hd]; omega)
      rw [hrec, hd, hdiv, entryBits_length]
      ring
    · simp only [dewhitenFuel, if_neg h13]
      have h0 : bits.length / 13 = 0 := Nat.div_eq_of_lt (by omega)
      simp [h0]

theorem dewhiten_length (table : Nat → Nat) (bits : List Bool) :
    (dewhiten table bits).length = 6 * (bits.length / 13) :=
  dewhitenFuel_length table bits.length bits (Nat.div_le_self _ _)

theorem foldl_preserves_length {α : Type} (step : List Nat → α → List Nat)
    (hstep : ∀ acc x, (step acc x).length = acc.length) :
    ∀ (l : List α) (init : List Nat), (l.foldl step init).length = init.length := by
  intro l
  induction l with
  | nil => intro init; rfl
  | cons x xs ih =>
    intro init
    rw [List.foldl_cons, ih (step init x), hstep]

theorem packBits_length (bits : List Bool) :
    (packBits bits).length = (bits.length + 7) / 8 := by
  unfold packBits
  rw [foldl_preserves_length _ (fun acc p => List.length_set acc _ _),
    List.length_replicate]

/-- Counting over `List.range (n + 1)` by peeling the bottom element. -/
theorem countP_range_shift (n : Nat) (p : Nat → Bool) :
    (List.range (n + 1)).countP p
      = (if p 0 then 1 else 0) + (List.range n).countP (fun j => p (j + 1)) := by
  rw [List.range_succ_eq_map, List.countP_cons, List.countP_map]
  have : (p ∘ Nat.succ) = fun j => p (j + 1) := rfl
  rw [this, Nat.add_comm]

theorem splitStreams_lengths (D : Nat) :
    ∀ (bits : List Bool) (i : Nat),
      (splitStreams D bits i).1.length
          = (List.range bits.length).countP (fun j => (i + j) % D == 0) ∧
      (splitStreams D bits i).2.1.length
          = (List.range bits.length).countP (fun j => (i + j) % D == 1) := by
  intro bits
  induction bits with
  | nil => intro i; simp [splitStreams]
  | cons b rest ih =>
    intro i
    have hshift0 :
        (List.range (rest.length + 1)).countP (fun j => (i + j) % D == 0)
          = (if i % D == 0 then 1 else 0)
            + (List.range rest.length).countP (fun j => (i + 1 + j) % D == 0) := by
      rw [countP_range_shift]
      have hfun : (fun j => (i + (j + 1)) % D == 0)
          = (fun j => (i + 1 + j) % D == 0) :=
        funext fun j => by rw [show i + (j + 1) = i + 1 + j from by omega]
      rw [hfun]
      norm_num
    have hshift1 :
        (List.range (rest.length + 1)).countP (fun j => (i + j) % D == 1)
          = (if i % D == 1 then 1 else 0)
            + (List.range rest.length).countP (fun j => (i + 1 + j) % D == 1) := by
      rw [countP_range_shift]
      have hfun : (fun j => (i + (j + 1)) % D == 1)
          = (fun j => (i + 1 + j) % D == 1) :=
        funext fun j => by rw [show i + (j + 1) = i + 1 + j from by omega]
      rw [hfun]
      norm_num
    obtain ⟨ih1, ih2⟩ := ih (i + 1)
    simp only [List.length_cons, hshift0, hshift1]
    by_cases h0 : i % D = 0
    · simp only [splitStreams, if_pos h0, List.length_cons, ih1, ih2]
      constructor
      · simp [h0, Nat.add_comm]
      · have : ((i % D == 1) : Bool) = false := by simp [h0]
        simp [this]
    · by_cases h1 : i % D = 1
      · simp only [splitStreams, if_neg h0, if_pos h1, List.length_cons, ih1, ih2]
        constructor
        · have : ((i % D == 0) : Bool) = false := by simp [h0]
          simp [this]
        · simp [h1, Nat.add_comm]
      · simp only [splitStreams, if_neg h0, if_neg h1, ih1, ih2]
        constructor
        · have : ((i % D == 0) : Bool) = false := by simp [h0]
          simp [this]
        · have : ((i % D == 1) : Bool) = false := by simp [h1]
          simp [this]

/-- Number of multiples of `D` below `N` (ceiling form). -/
theorem countP_mod_zero (D : Nat) (hD : 0 < D) :
    ∀ N, (List.range N).countP (fun j => j % D == 0) = (N + D - 1) / D := by
  intro N
  induction N with
  | zero =>
    simp [Nat.div_eq_of_lt (show D - 1 < D by omega)]
  | succ n ih =>
    rw [List.range_succ, List.countP_append, ih]
    have h2 : n + 1 + D - 1 = (n + D - 1) + 1 := by omega
    rw [h2, Nat.succ_div]
    have h3 : n + D - 1 + 1 = n + D := by omega
    rw [h3]
    by_cases hnd : n % D = 0
    · have hdvd : D ∣ n + D := (Nat.dvd_add_self_right).mpr (Nat.dvd_of_mod_eq_zero hnd)
      simp [hnd, hdvd]
    · have hdvd : ¬ D ∣ n + D := fun hc =>
        hnd (Nat.mod_eq_zero_of_dvd ((Nat.dvd_add_self_right).mp hc))
      simp [hnd, hdvd]

/-- Number of naturals below `N` congruent to `1` modulo `D` (for `2 ≤ D`). -/
theorem countP_mod_one (D : Nat) (hD : 2 ≤ D) :
    ∀ N, (List.range N).countP (fun j => j % D == 1) = (N + D - 2) / D := by
  intro N
  induction N with
  | zero =>
    simp [Nat.div_eq_of_lt (show D - 2 < D by omega)]
  | succ n ih =>
    rw [List.range_succ, List.countP_append, ih]
    have h2 : n + 1 + D - 2 = (n + D - 2) + 1 := by omega
    rw [h2, Nat.succ_div]
    have h3 : n + D - 2 + 1 = n + D - 1 := by omega
    rw [h3]
    have hplus : n + D - 1 = n + (D - 1) := by omega
    rw [hplus]
    by_cases hnd : n % D = 1
    · have hdvd : D ∣ n + (D - 1) := by
        rw [Nat.dvd_iff_mod_eq_zero, Nat.add_mod, hnd,
          Nat.mod_eq_of_lt (show D - 1 < D by omega),
          show 1 + (D - 1) = D from by omega, Nat.mod_self]
      simp [hnd, hdvd]
    · have hdvd : ¬ D ∣ n + (D - 1) := by
        intro hc
        apply hnd
        have h4 : (n % D + (D - 1)) % D = 0 := by
          rw [← Nat.mod_eq_of_lt (show D - 1 < D by omega), ← Nat.add_mod]
          exact (Nat.dvd_iff_mod_eq_zero).mp hc
        have hmod := Nat.mod_lt n (show 0 < D by omega)
        have h5 := Nat.div_add_mod (n % D + (D - 1)) D
        rw [h4, Nat.add_zero] at h5
        have h6 : (n % D + (D - 1)) / D < 2 :=
          Nat.div_lt_of_lt_mul (by omega)
        interval_cases h7 : ((n % D + (D - 1)) / D) <;> omega
      simp [hnd, hdvd]

theorem count_data_bits (D S : Nat) (hD : 2 ≤ D) (hS : 1 ≤ S) :
    (List.range ((S - 1) * D + 2)).countP (fun j => j % D == 0) = S := by
  obtain ⟨T, rfl⟩ : ∃ T, S = T + 1 := ⟨S - 1, by omega⟩
  simp only [Nat.add_sub_cancel]
  rw [countP_mod_zero D (by omega)]
  have h1 : T * D + 2 + D - 1 = 1 + D * (T + 1) := by
    have hm : D * (T + 1) = T * D + D := by ring
    omega
  rw [h1, Nat.add_mul_div_left 1 (T + 1) (show 0 < D by omega),
    Nat.div_eq_of_lt (show 1 < D by omega)]
  omega

theorem count_decoy_bits (D S : Nat) (hD : 2 ≤ D) (hS : 1 ≤ S) :
    (List.range ((S - 1) * D + 2)).countP (fun j => j % D == 1) = S := by
  obtain ⟨T, rfl⟩ : ∃ T, S = T + 1 := ⟨S - 1, by omega⟩
  simp only [Nat.add_sub_cancel]
  rw [countP_mod_one D hD]
  have h1 : T * D + 2 + D - 2 = D * (T + 1) := by
    have hm : D * (T + 1) = T * D + D := by ring
    omega
  rw [h1, Nat.mul_div_cancel_left (T + 1) (show 0 < D by omega)]

theorem route_carrier_ok_lengths (U : List Bool) (level : BitSelection)
    (c : EncryptedCarrierM) (h : route_carrier U level = .ok c) :
    selected_bit_count_of U.length level.divisor % 128 = 0 ∧
    c.data.length = selected_bit_count_of U.length level.divisor / 8 ∧
    c.decoy.length = selected_bit_count_of U.length level.divisor / 8 ∧
    8 * c.data.length = selected_bit_count_of U.length level.divisor ∧
    8 * c.decoy.length = selected_bit_count_of U.length level.divisor := by
  have hD : 2 ≤ level.divisor := level.two_le_divisor
  unfold route_carrier at h
  split_ifs at h with h1 h2
  · have hc := (Except.ok.inj h).symm
    subst hc
    have hSmod : selected_bit_count_of U.length level.divisor % 128 = 0 := by
      unfold selected_bit_count_of
      exact Nat.mul_mod_left _ _
    obtain ⟨k, hk⟩ : ∃ k, selected_bit_count_of U.length level.divisor = 8 * k :=
      ⟨16 * (selected_bit_count_of U.length level.divisor / 128), by omega⟩
    have hSle : selected_bit_count_of U.length level.divisor
        ≤ (U.length - 2984) / level.divisor := by
      unfold selected_bit_count_of
      exact Nat.div_mul_le_self _ _
    have hSD : selected_bit_count_of U.length level.divisor * level.divisor
        ≤ U.length - 2984 :=
      le_trans (Nat.mul_le_mul_right _ hSle) (Nat.div_mul_le_self _ _)
    have hmul : selected_bit_count_of U.length level.divisor * level.divisor
        = (selected_bit_count_of U.length level.divisor - 1) * level.divisor
          + level.divisor := by
      obtain ⟨T, hT⟩ : ∃ T, selected_bit_count_of U.length level.divisor = T + 1 :=
        ⟨selected_bit_count_of U.length level.divisor - 1, by omega⟩
      rw [hT]
      simp [Nat.succ_mul]
    have htaken : ((U.drop 2048).take
          ((selected_bit_count_of U.length level.divisor - 1) * level.divisor + 2)).length
        = (selected_bit_count_of U.length level.divisor - 1) * level.divisor + 2 := by
      rw [List.length_take, List.length_drop]
      apply Nat.min_eq_left
      omega
    obtain ⟨hfst, hsnd⟩ := splitStreams_lengths level.divisor
      ((U.drop 2048).take
        ((selected_bit_count_of U.length level.divisor - 1) * level.divisor + 2)) 0
    rw [htaken] at hfst hsnd
    have hz0 : (fun j => (0 + j) % level.divisor == 0)
        = (fun j => j % level.divisor == 0) := funext fun j => by rw [Nat.zero_add]
    have hz1 : (fun j => (0 + j) % level.divisor == 1)
        = (fun j => j % level.divisor == 1) := funext fun j => by rw [Nat.zero_add]
    rw [hz0, count_data_bits level.divisor _ hD (by omega)] at hfst
    rw [hz1, count_decoy_bits level.divisor _ hD (by omega)] at hsnd
    refine ⟨hSmod, ?_, ?_, ?_, ?_⟩
    · show (packBits _).length = _
      rw [packBits_length, hfst]
      omega
    · show (packBits _).length = _
      rw [packBits_length, hsnd]
      omega
    · show 8 * (packBits _).length = _
      rw [packBits_length, hfst]
      omega
    · show 8 * (packBits _).length = _
      rw [packBits_length, hsnd]
      omega

/-- C2: for every carrier accepted by `from_reader` (dewhitened bit count at
least 2984), the selected bit count
`S = ((len(U) - 2984) / divisor) & !127` is a multiple of 128 and the
returned `EncryptedCarrier` satisfies
`len(data) = len(decoy) = S / 8`, i.e. `8 * len(data) = 8 * len(decoy) = S`. -/
theorem from_reader_selected_bit_invariants (table : Nat → Nat) (w : List Bool)
    (level : BitSelection) (c : EncryptedCarrierM)
    (h : from_reader table w level = .ok c) :
    selected_bit_count_of (dewhiten table w).length level.divisor % 128 = 0 ∧
    c.data.length = selected_bit_count_of (dewhiten table w).length level.divisor / 8 ∧
    c.decoy.length = selected_bit_count_of (dewhiten table w).length level.divisor / 8 ∧
    8 * c.data.length = selected_bit_count_of (dewhiten table w).length level.divisor ∧
    8 * c.decoy.length = selected_bit_count_of (dewhiten table w).length level.divisor :=
  route_carrier_ok_lengths (dewhiten table w) level c h

/-- A 3240-bit unwhitened vector is accepted at maximum density, with the
routed record given symbolically (divisor 2, selected bit count 128). -/
theorem route_carrier_ok_of_length (U : List Bool) (hU : U.length = 3240) :
    route_carrier U .maximum
      = .ok ⟨packBits (U.take 2048),
          packBits (splitStreams 2 ((U.drop 2048).take 256) 0).1,
          packBits (splitStreams 2 ((U.drop 2048).take 256) 0).2.1,
          (splitStreams 2 ((U.drop 2048).take 256) 0).2.2⟩ := by
  unfold route_carrier
  rw [hU]
  norm_num [selected_bit_count_of, BitSelection.divisor]

/-- Witness for C2: a concrete accepted carrier (7020 whitened bits, hence
3240 unwhitened bits; divisor 2; selected bit count 128). -/
theorem from_reader_selected_bit_invariants_witness :
    selected_bit_count_of (dewhiten (fun _ => 0) (List.replicate 7020 false)).length
        BitSelection.maximum.divisor % 128 = 0 ∧
    c2WitnessCarrier.data.length
      = selected_bit_count_of (dewhiten (fun _ => 0) (List.replicate 7020 false)).length
          BitSelection.maximum.divisor / 8 ∧
    c2WitnessCarrier.decoy.length
      = selected_bit_count_of (dewhiten (fun _ => 0) (List.replicate 7020 false)).length
          BitSelection.maximum.divisor / 8 ∧
    8 * c2WitnessCarrier.data.length
      = selected_bit_count_of (dewhiten (fun _ => 0) (List.replicate 7020 false)).length
          BitSelection.maximum.divisor ∧
    8 * c2WitnessCarrier.decoy.length
      = selected_bit_count_of (dewhiten (fun _ => 0) (List.replicate 7020 false)).length
          BitSelection.maximum.divisor :=
  from_reader_selected_bit_invariants (fun _ => 0) (List.replicate 7020 false)
    .maximum c2WitnessCarrier
    (route_carrier_ok_of_length _ (by rw [dewhiten_length, List.length_replicate]))

/-- C8: when the dewhitened bit count lies in `[2984, 2984 + 128 * divisor)`,
the selected bit count is 0 and `from_reader` neither returns a carrier nor
`CarrierTooSmall`: the `usize` subtraction `(selected_bit_count - 1)`
underflows and a checked build panics. -/
theorem from_reader_underflow_panics (table : Nat → Nat) (w : List Bool)
    (level : BitSelection)
    (h1 : 2984 ≤ (dewhiten table w).length)
    (h2 : (dewhiten table w).length < 2984 + 128 * level.divisor) :
    selected_bit_count_of (dewhiten table w).length level.divisor = 0 ∧
    from_reader table w level = .error .panicked := by
  have hS : selected_bit_count_of (dewhiten table w).length level.divisor = 0 := by
    unfold selected_bit_count_of
    have hlt : ((dewhiten table w).length - 2984) / level.divisor < 128 := by
      rw [Nat.div_lt_iff_lt_mul (show 0 < level.divisor by
        have := level.two_le_divisor; omega)]
      omega
    rw [Nat.div_eq_of_lt hlt, Nat.zero_mul]
  refine ⟨hS, ?_⟩
  unfold from_reader route_carrier
  rw [if_neg (by omega), if_pos hS]

/-- Witness for C8: 6474 whitened bits give 2988 unwhitened bits, inside the
panicking window for the default (medium) density. -/
theorem from_reader_underflow_panics_witness :
    selected_bit_count_of (dewhiten (fun _ => 0) (List.replicate 6474 false)).length
        BitSelection.medium.divisor = 0 ∧
    from_reader (fun _ => 0) (List.replicate 6474 false) BitSelection.medium
      = .error .panicked :=
  from_reader_underflow_panics (fun _ => 0) (List.replicate 6474 false) .medium
    (by rw [dewhiten_length, List.length_replicate]; norm_num)
    (by rw [dewhiten_length, List.length_replicate]; norm_num [BitSelection.divisor])

/-- C4 counterexample: `from_extension` is not ASCII-case-insensitive —
`"WAV"` maps to no carrier type while its lowercasing `"wav"` maps to WAV. -/
theorem from_extension_case_counterexample :
    CarrierType.from_extension "WAV" = none ∧
    CarrierType.from_extension (asciiLowerString "WAV") = some CarrierType.wav := by
  exact ⟨by decide, by decide⟩

/-- C4 amended: extension lookup is exact (case-sensitive); every recognized
extension string is already ASCII-lowercase, so lowercasing changes the
result only for non-lowercase inputs (which always map to `none`). -/
theorem from_extension_recognized_lowercase (e : String)
    (h : (CarrierType.from_extension e).isSome = true) :
    asciiLowerString e = e ∧
      CarrierType.from_extension (asciiLowerString e) = CarrierType.from_extension e := by
  unfold CarrierType.from_extension at h
  split at h
  all_goals first
    | exact ⟨by decide, by decide⟩
    | simp at h

/-- Witness for the amended C4 at a concrete recognized extension. -/
theorem from_extension_recognized_lowercase_witness :
    asciiLowerString "wav" = "wav" ∧
      CarrierType.from_extension (asciiLowerString "wav")
        = CarrierType.from_extension "wav" :=
  from_extension_recognized_lowercase "wav" (by decide)

set_option maxRecDepth 4000 in
/-- Sanity check: the embedded-file framing test (spec §8, scenario 7) uses
`compute("abc")`, which the model evaluates to `0x9b73448c`. -/
theorem crc32_compute_abc : crc32_compute [97, 98, 99] = 0x9b73448c := by decide

/-- C6: whenever `from_bits` returns a file, the stored CRC equals the custom
CRC of the content and the filename/content lengths equal the header fields;
and `from_bits` returns `none` whenever the input is shorter than
`10 + filename_length + content_size` or the stored CRC differs from the
computed one. -/
theorem from_bits_spec (bits : List Nat) :
    (∀ f, EmbeddedFile.from_bits bits = some f →
      crc32_compute f.content = f.crc32 ∧
      f.filename.length = filename_length bits ∧
      f.content.length = content_size bits) ∧
    (bits.length < 10 + filename_length bits + content_size bits →
      EmbeddedFile.from_bits bits = none) ∧
    (crc32_compute ((bits.drop (10 + filename_length bits)).take (content_size bits))
        ≠ stored_crc32 bits →
      EmbeddedFile.from_bits bits = none) := by
  refine ⟨?_, ?_, ?_⟩
  · intro f h
    unfold EmbeddedFile.from_bits at h
    split_ifs at h with h1 h2 h3
    have hf := (Option.some.inj h).symm
    subst hf
    refine ⟨?_, ?_, ?_⟩
    · show crc32_compute ((bits.drop (10 + filename_length bits)).take (content_size bits))
        = stored_crc32 bits
      omega
    · show ((bits.drop 10).take (filename_length bits)).length = filename_length bits
      rw [List.length_take, List.length_drop]
      omega
    · show ((bits.drop (10 + filename_length bits)).take (content_size bits)).length
        = content_size bits
      rw [List.length_take, List.length_drop]
      omega
  · intro hshort
    unfold EmbeddedFile.from_bits
    split_ifs with h1 h2 h3 <;> first | rfl | omega
  · intro hcrc
    unfold EmbeddedFile.from_bits
    split_ifs with h1 h2 h3 <;> first | rfl | omega

set_option maxRecDepth 4000 in
/-- Witness for C6: the spec §8 framing example — filename `"test"`,
content `"abc"`, correct stored CRC `0x9b73448c`. -/
theorem from_bits_spec_witness :
    crc32_compute [97, 98, 99] = 0x9b73448c ∧
    ([116, 101, 115, 116] : List Nat).length
        = filename_length [4, 0, 3, 0, 0, 0, 0x8c, 0x44, 0x73, 0x9b,
            116, 101, 115, 116, 97, 98, 99] ∧
    ([97, 98, 99] : List Nat).length
        = content_size [4, 0, 3, 0, 0, 0, 0x8c, 0x44, 0x73, 0x9b,
            116, 101, 115, 116, 97, 98, 99] :=
  (from_bits_spec [4, 0, 3, 0, 0, 0, 0x8c, 0x44, 0x73, 0x9b,
      116, 101, 115, 116, 97, 98, 99]).1
    ⟨[116, 101, 115, 116], [97, 98, 99], 0x9b73448c, []⟩ (by decide)

/-- C5 failing input: a 20-byte stream declaring `chunk_size = 5` (budget
`data_size = 1` after the prefix) followed by an unknown subchunk header.
The parser reads the full 8-byte subchunk header — 8 bytes past the prefix
where only 1 is allowed — consumes the entire stream (empty remainder) and
still returns success. -/
theorem wav_parse_consumes_past_declared_size :
    wav_parse [82, 73, 70, 70, 5, 0, 0, 0, 87, 65, 86, 69,
        106, 117, 110, 107, 0, 0, 0, 0] = .ok ([], []) ∧
    ([82, 73, 70, 70, 5, 0, 0, 0, 87, 65, 86, 69,
        106, 117, 110, 107, 0, 0, 0, 0] : List Nat).length - 12 > 5 - 4 :=
  ⟨by decide, by decide⟩
end LibrePuff
